import Mathlib

/-!
Verification development for the mr-status-monitor repository.

Shallow embedding of the pure logic of the source files
`src/mr_model.py`, `src/gitlab_api.py` and `src/mr_notifier.py`:
Python dictionaries become structures (a field read with `.get(k, d)`
becomes an `Option` field read with `.getD d`), exceptions become
`Option`/failure results, and the network and filesystem are passed in
explicitly as environments.  String primitives (stripping, integer
parsing, comparison, replacement) are modelled on the character lists
underlying `String`, matching Python's code-point semantics.
-/

/-- Python string comparison `a < b`: lexicographic on code points. -/
def charListLT : List Char → List Char → Bool
  | [], [] => false
  | [], _ :: _ => true
  | _ :: _, [] => false
  | a :: as, b :: bs =>
    if a < b then true else if b < a then false else charListLT as bs

/-- ASCII whitespace stripped by Python's `str.strip()` / `int(str)`
(the Unicode cases never arise in this program). -/
def isPyWhitespace (c : Char) : Bool :=
  c = ' ' || c = '\t' || c = '\n' || c = '\r' ||
    c = Char.ofNat 11 || c = Char.ofNat 12

/-- Python `str.strip()` on a character list. -/
def stripChars (l : List Char) : List Char :=
  ((l.dropWhile isPyWhitespace).reverse.dropWhile isPyWhitespace).reverse

/-- Python `str.strip()`. -/
def pyStrip (s : String) : String :=
  String.mk (stripChars s.data)

/-- The value of a decimal digit character, `none` otherwise. -/
def decDigit? (c : Char) : Option Nat :=
  if '0' ≤ c && c ≤ '9' then some (c.toNat - '0'.toNat) else none

/-- A non-empty all-digit character list as a number, `none` otherwise. -/
def digitsToNat? : List Char → Option Nat
  | [] => none
  | l => go l 0
where
  go : List Char → Nat → Option Nat
    | [], acc => some acc
    | c :: cs, acc => (decDigit? c).bind (fun d => go cs (10 * acc + d))

/-- Python `int(·)` on a character list: optional surrounding
whitespace, an optional sign, then one or more decimal digits; anything
else raises (`none`).  (Digit-group underscores are not modelled; no
caller produces them.) -/
def pyIntChars? (l : List Char) : Option Int :=
  match stripChars l with
  | '-' :: rest => (digitsToNat? rest).map (fun n => -(n : Int))
  | '+' :: rest => (digitsToNat? rest).map (fun n => (n : Int))
  | t => (digitsToNat? t).map (fun n => (n : Int))

/-- Python `int(s)` on a string. -/
def pyInt? (s : String) : Option Int :=
  pyIntChars? s.data

namespace MRModelM

/-- One entry of `MRModel._data` (a Python dict).  Only the fields the
modelled operations touch are carried: `repo` is read by `clear_repo`
and by the sort key (it may be absent from a dict, hence `Option`),
`mr` is read by `update_repo_data` (a `KeyError` there would prevent
insertion, so every stored entry has it), and `key` is written by
`update_repo_data`.  Display payload fields (title, urls, ...) do not
affect these operations and are omitted. -/
structure MREntry where
  repo : Option String
  mr : String
  key : String
  deriving DecidableEq, Repr

/-- The numeric part of the sort key in `MRModel._sort_data`:
`int(x.get('mr', '!0')[1:] or 0)`.  The first character is dropped;
an empty remainder is falsy, so `int(0) = 0`; otherwise `int` parses
the remainder and raises (`none`) on a malformed string. -/
def mrSortNum? (mr : String) : Option Int :=
  match mr.data.drop 1 with
  | [] => some 0
  | t => pyIntChars? t

/-- The full sort key `(x.get('repo', ''), int(x.get('mr', '!0')[1:] or 0))`
of an entry (repo as its character list), with `0` standing in for a
number whose parse raised (the sort is only run when every parse
succeeds). -/
def sortKeyOf (e : MREntry) : List Char × Int :=
  ((e.repo.getD "").data, (mrSortNum? e.mr).getD 0)

/-- Lexicographic comparison of Python tuples `(str, int)` as used by
`list.sort(key=...)`. -/
def keyLE (a b : List Char × Int) : Bool :=
  charListLT a.1 b.1 || (decide (a.1 = b.1) && decide (a.2 ≤ b.2))

/-- Entry comparison used by the modelled sort. -/
def entryLE (a b : MREntry) : Bool :=
  keyLE (sortKeyOf a) (sortKeyOf b)

/-- The sort order as a decidable relation. -/
abbrev entryRel : MREntry → MREntry → Prop :=
  fun a b => entryLE a b = true

/-- `MRModel._sort_data`: a no-op on the empty list, otherwise a stable
sort of `_data` by `sortKeyOf` (Python's `list.sort` is stable; so is
insertion sort); when some entry's `mr` number fails to parse, Python's
`int` raises out of the method (`none`). -/
def sort_data (l : List MREntry) : Option (List MREntry) :=
  if l = [] then some []
  else if l.all (fun e => (mrSortNum? e.mr).isSome) then
    some (l.insertionSort entryRel)
  else none

/-- `MRModel.clear_repo`: removes every entry whose `'repo'` value equals
`repo_name`, preserving the order of the rest; an entry without a
`'repo'` key raises `KeyError` out of the method (`none`). -/
def clear_repo (repo_name : String) : List MREntry → Option (List MREntry)
  | [] => some []
  | e :: rest =>
    match e.repo with
    | none => none
    | some r =>
      if r = repo_name then clear_repo repo_name rest
      else (clear_repo repo_name rest).map (e :: ·)

/-- `MRModel.update_repo_data`: drop the repo's old entries, append each
new item with its `'key'` set to `f"{repo_name}-{new_item['mr']}"`, then
re-sort.  (The `existing_items` dict built on entry is dead code — it is
never read — and is omitted.)  `none` models an exception escaping the
method. -/
def update_repo_data (repo_name : String) (new_items : List MREntry)
    (data : List MREntry) : Option (List MREntry) :=
  (clear_repo repo_name data).bind (fun cleared =>
    sort_data (cleared ++ new_items.map
      (fun it => MREntry.mk it.repo it.mr (repo_name ++ "-" ++ it.mr))))

/-- The identity of an entry: its `(repo, mr)` pair. -/
def pairOf (e : MREntry) : Option String × String :=
  (e.repo, e.mr)

/-- Run a sequence of `update_repo_data` calls from the empty model,
propagating a raised exception (`none`). -/
def runCalls (calls : List (String × List MREntry)) : Option (List MREntry) :=
  calls.foldl (fun acc c => acc.bind (update_repo_data c.1 c.2)) (some [])

/-- A call whose new items all carry `repo = repo_name` (as the fetch
worker produces them) and pairwise-distinct `mr` labels. -/
def GoodCall (c : String × List MREntry) : Prop :=
  (∀ it ∈ c.2, it.repo = some c.1) ∧ (c.2.map (·.mr)).Nodup

instance (c : String × List MREntry) : Decidable (GoodCall c) := by
  unfold GoodCall
  infer_instance

/-- The invariant maintained by well-formed `update_repo_data` calls. -/
def Inv (l : List MREntry) : Prop :=
  (∀ e ∈ l, e.repo.isSome) ∧ (l.map pairOf).Nodup ∧ l.Pairwise entryRel

end MRModelM

namespace GitlabApiM

/-- One transport outcome of `requests.get` in `make_gitlab_request`:
an HTTP response whose body decodes (`Except.ok`) or raises in
`.json()` (`Except.error`), a `requests.exceptions.Timeout`, or any
other exception. -/
inductive Outcome (β : Type) where
  | resp (status : Nat) (body : Except Unit β)
  | timeout
  | exn

/-- What a run of `make_gitlab_request` did: the value returned, how
many HTTP requests were issued, and the `time.sleep` delays performed
in order. -/
structure ReqResult (β : Type) where
  result : Option β
  requests : Nat
  sleeps : List Nat
  deriving DecidableEq, Repr

/-- The body of the `for attempt in range(max_retries)` loop of
`make_gitlab_request`, from iteration `attempt` on, with `remaining`
iterations left (`remaining = max_retries - attempt` at every call
from `make_gitlab_request`; `attempt < max_retries - 1`, "not the last
attempt", is then `0 < remaining - 1`).  `env k` is the transport
outcome of the `k`-th `requests.get` call.
 - status 200: return the decoded body, or on a `.json()` error fall
   into the generic handler (sleep `base_delay` unless last attempt);
 - status 429: sleep `base_delay * 2^attempt + 5` (even on the last
   attempt) and retry;
 - any other status: return `None` immediately;
 - timeout: sleep `base_delay * 2^attempt` unless last attempt, retry;
 - other exception: sleep `base_delay` unless last attempt, retry.
Falling off the loop returns `None`. -/
def requestLoop (env : Nat → Outcome β) (base_delay : Nat) :
    (attempt remaining : Nat) → ReqResult β
  | _, 0 => ⟨none, 0, []⟩
  | attempt, r + 1 =>
    match env attempt with
    | .resp status body =>
      if status = 200 then
        match body with
        | .ok b => ⟨some b, 1, []⟩
        | .error _ =>
          let rest := requestLoop env base_delay (attempt + 1) r
          ⟨rest.result, rest.requests + 1,
            (if 0 < r then [base_delay] else []) ++ rest.sleeps⟩
      else if status = 429 then
        let rest := requestLoop env base_delay (attempt + 1) r
        ⟨rest.result, rest.requests + 1,
          (base_delay * 2 ^ attempt + 5) :: rest.sleeps⟩
      else ⟨none, 1, []⟩
    | .timeout =>
      let rest := requestLoop env base_delay (attempt + 1) r
      ⟨rest.result, rest.requests + 1,
        (if 0 < r then [base_delay * 2 ^ attempt] else []) ++ rest.sleeps⟩
    | .exn =>
      let rest := requestLoop env base_delay (attempt + 1) r
      ⟨rest.result, rest.requests + 1,
        (if 0 < r then [base_delay] else []) ++ rest.sleeps⟩

/-- `make_gitlab_request` (url, headers and params do not influence the
modelled control flow and are omitted; defaults `max_retries=3`,
`base_delay=1` are supplied at call sites). -/
def make_gitlab_request (env : Nat → Outcome β) (max_retries base_delay : Nat) :
    ReqResult β :=
  requestLoop env base_delay 0 max_retries

/-- One entry of `approval_rules_left` in the approvals payload; the
rule name is read with `rule.get('name', '')`. -/
structure ApprovalRule where
  name : Option String

/-- The approvals payload consumed by `get_approval_status`:
`approval_rules_left` is read with `.get(..., [])` and `approved` with
`.get(..., False)`. -/
structure ApprovalsData where
  approval_rules_left : Option (List ApprovalRule)
  approved : Option Bool

/-- The dict returned by `get_approval_status`. -/
structure ApprovalStatus where
  approved_by_all : Bool
  approved_except_coverage : Bool
  needs_coverage_check : Bool
  deriving DecidableEq, Repr

/-- `get_approval_status`, as a function of the (possibly failed)
approvals fetch.  The loop over `approval_rules_left` sets
`needs_coverage_check` when some rule is named exactly
`'Coverage-Check'` and `needs_other_approval` when some rule has any
other name; on fetch failure all three flags are `False`. -/
def get_approval_status (fetched : Option ApprovalsData) : ApprovalStatus :=
  match fetched with
  | none => ⟨false, false, false⟩
  | some d =>
    let approval_rules := d.approval_rules_left.getD []
    let needs_coverage_check :=
      approval_rules.any (fun rule => rule.name.getD "" == "Coverage-Check")
    let needs_other_approval :=
      approval_rules.any (fun rule => !(rule.name.getD "" == "Coverage-Check"))
    let approved_by_all := d.approved.getD false
    ⟨approved_by_all,
     !needs_other_approval && (!approved_by_all || needs_coverage_check),
     needs_coverage_check⟩

/-- The MR-detail payload (`GET /projects/{id}/merge_requests/{iid}`),
with the fields read by `get_merge_status` and by the head-pipeline
fallback of `get_pipeline_status`. -/
structure MRDetail where
  merge_status : Option String
  detailed_merge_status : Option String
  has_conflicts : Option Bool
  sha : Option String
  source_branch : Option String
  head_pipeline_id : Option Int

/-- `get_merge_status`, as a function of the (possibly failed) MR-detail
fetch: `'CONFLICT'` when `detailed_merge_status == 'conflict'` or
`merge_status == 'cannot_be_merged'` or `has_conflicts` is truthy,
otherwise the empty string; the empty string also on fetch failure. -/
def get_merge_status (fetched : Option MRDetail) : String :=
  match fetched with
  | none => ""
  | some mr_data =>
    if (mr_data.detailed_merge_status == some "conflict") ||
        (mr_data.merge_status == some "cannot_be_merged") ||
        mr_data.has_conflicts.getD false
    then "CONFLICT"
    else ""

/-- One pipeline object as returned by the pipelines endpoints; the
fields `get_pipeline_status` reads (`['status']`, `['web_url']`,
`['id']`) are required keys there. -/
structure Pipeline where
  status : String
  web_url : String
  id : Int
  deriving DecidableEq, Repr

/-- The responses of the up-to-three API calls `get_pipeline_status`
can make, each already passed through `make_gitlab_request` (so `none`
is a failed request): the pipelines-by-SHA list, the MR detail, and the
pipeline-by-id lookup as a function of the requested id. -/
structure PipelineEnv where
  pipelines_by_sha : Option (List Pipeline)
  mr_detail : Option MRDetail
  pipeline_by_id : Int → Option Pipeline

/-- The API calls `get_pipeline_status` can issue, in order. -/
inductive PipelineReq where
  | pipelinesBySha
  | mrDetail
  | pipelineById (id : Int)
  deriving DecidableEq, Repr

/-- `get_pipeline_status`: query pipelines filtered by commit SHA and,
if the list is non-empty, return the first entry's status and web URL;
otherwise, when a truthy `mr_iid` was supplied, fetch the MR detail
and, when it carries a head pipeline, fetch that pipeline by id and use
its status and URL; otherwise return `(none, none)`.  Alongside the
status/URL pair it returns the list of API requests issued (the
`debug_info` bookkeeping of the source carries no control flow and is
modelled by this request log). -/
def get_pipeline_status (env : PipelineEnv) (mr_iid : Option Int) :
    (Option String × Option String) × List PipelineReq :=
  match env.pipelines_by_sha with
  | some (latest_pipeline :: _) =>
    ((some latest_pipeline.status, some latest_pipeline.web_url),
      [PipelineReq.pipelinesBySha])
  | _ =>
    -- empty list or failed request: fall through to the MR-id fallback
    let log0 := [PipelineReq.pipelinesBySha]
    if (match mr_iid with | some i => i != 0 | none => false) then
      match env.mr_detail with
      | none => ((none, none), log0 ++ [PipelineReq.mrDetail])
      | some mr_data =>
        match mr_data.head_pipeline_id with
        | none => ((none, none), log0 ++ [PipelineReq.mrDetail])
        | some pid =>
          match env.pipeline_by_id pid with
          | none => ((none, none),
              log0 ++ [PipelineReq.mrDetail, PipelineReq.pipelineById pid])
          | some pipeline_data =>
            ((some pipeline_data.status, some pipeline_data.web_url),
              log0 ++ [PipelineReq.mrDetail, PipelineReq.pipelineById pid])
    else ((none, none), log0)

end GitlabApiM

namespace MRNotifierM

open GitlabApiM

/-- Replace every occurrence of the character `from_c` in a string, as
Python's `str.replace` does for a single-character pattern. -/
def replaceChar (from_c to_c : Char) (s : String) : String :=
  String.mk (s.data.map (fun c => if c = from_c then to_c else c))

/-- The state of one file in the notifier state directory: present and
readable with some content, or present but raising on read. -/
inductive FileState where
  | readable (content : String)
  | unreadable
  deriving DecidableEq, Repr

/-- The notifier state directory as a map from file name to file state
(`none` = the file does not exist). -/
def FileSys : Type := String → Option FileState

/-- `MRNotifier._get_notification_date_file`: the marker file name
`notified_{safe_mr_key}.date`, where `safe_mr_key` replaces `/` and `!`
by `_`. -/
def notification_date_file (mr_key : String) : String :=
  "notified_" ++ replaceChar '!' '_' (replaceChar '/' '_' mr_key) ++ ".date"

/-- `MRNotifier._should_notify`: `True` when the marker file does not
exist, or exists but raises on read, or its stripped content differs
from today's date. -/
def should_notify (fs : FileSys) (mr_key today : String) : Bool :=
  match fs (notification_date_file mr_key) with
  | none => true
  | some FileState.unreadable => true
  | some (FileState.readable last_notified) => pyStrip last_notified != today

/-- `MRNotifier._mark_notified`: try to write today's date into the
marker file.  The write is wrapped in `try/except` in the source
(mr_notifier.py:105-118): a raising write is logged and swallowed,
leaving the state directory unchanged — no marker file is written.
`write_ok` is the outcome of that write. -/
def mark_notified (write_ok : Bool) (fs : FileSys) (mr_key today : String) :
    FileSys :=
  if write_ok then
    fun p => if p = notification_date_file mr_key then
      some (FileState.readable today) else fs p
  else fs

/-- The slice of an `mr_data` dict handed to
`process_mr_for_notification`: `repo_name` is read with
`.get('repo_name', 'unknown')`; `mr['iid']` and `mr['web_url']` are
required fields of the upstream MR object; `project_id` and
`approval_status`/`pipeline_status` presence is tested with `in`. -/
structure NotifMR where
  repo_name : Option String
  iid : Int
  web_url : String
  project_id : Option String
  approval_status : Option ApprovalStatus
  pipeline_status : Option String

/-- The external collaborators of one notification evaluation, fixed
for the evaluation: the assignee and approver lists returned by
`get_mr_assignees_and_approvals`, the name→Slack-id translation
(memoisation only changes where the answer comes from, not the answer),
whether `add_reviewers_to_mr` succeeds, whether
`_send_slack_message` succeeds, and whether the marker write in
`_mark_notified` succeeds. -/
structure NotifEnv where
  assignees : List String
  approved_users : List String
  slackId : String → Option String
  addReviewersOk : Bool
  sendOk : Bool
  writeOk : Bool

/-- The merge-request key `f"{repo_name}-{mr_iid}"`. -/
def mrKeyOf (m : NotifMR) : String :=
  m.repo_name.getD "unknown" ++ "-" ++ toString m.iid

/-- The `approved_by_all` test of lines 297–302: present
`approval_status` with `.get('approved_by_all', False)` set. -/
def approved_by_all_of (m : NotifMR) : Bool :=
  match m.approval_status with
  | some ap => ap.approved_by_all
  | none => false

/-- `MRNotifier._check_and_add_coverage_reviewers`: attempts the
reviewer auto-assignment when the pipeline succeeded and the MR is
approved except for an outstanding coverage rule; its result is
discarded by the caller. -/
def check_and_add_coverage_reviewers (env : NotifEnv) (m : NotifMR) : Bool :=
  match m.approval_status, m.pipeline_status with
  | some approval_status, some pipeline_status =>
    if pipeline_status == "success" &&
        approval_status.approved_except_coverage &&
        approval_status.needs_coverage_check
    then env.addReviewersOk
    else false
  | _, _ => false

/-- `MRNotifier._format_notification_message`: every pending person as
a Slack mention when the lookup yields an id, else the plain name,
joined and wrapped around the MR URL. -/
def format_notification_message (env : NotifEnv) (m : NotifMR)
    (assignees : List String) : String :=
  let assignee_mentions := assignees.map (fun assignee =>
    match env.slackId assignee with
    | some slack_user_id => "<@" ++ slack_user_id ++ ">"
    | none => assignee)
  let mentions := if assignee_mentions.isEmpty then "reviewers"
    else String.intercalate ", " assignee_mentions
  "Please review " ++ mentions ++ ": " ++ m.web_url ++ " (ty)"

/-- What one `process_mr_for_notification` call did: its return value,
the state directory afterwards, and each `_send_slack_message` call as
(message, send succeeded). -/
structure ProcResult where
  returned : Bool
  fs : FileSys
  sends : List (String × Bool)

/-- `MRNotifier.process_mr_for_notification` for a well-formed record
(the `KeyError`/`except` paths for records missing the required `mr`
fields cannot arise for the `NotifMR` type):
 1. skip (`False`) when already notified today;
 2. skip (`False`, no marker) when `project_id` is absent;
 3. when all approvals are in: attempt the marker write, send
    nothing, `False`;
 4. best-effort coverage-reviewer auto-assignment (result discarded);
 5. pending = assignees minus approvers; no assignees at all, or none
    pending: attempt the marker write, send nothing, `False`;
 6. otherwise send the reminder; on confirmed success attempt the
    marker write and return `True`, on failure touch nothing and
    return `False` (a marker-write failure is swallowed either way). -/
def process_mr_for_notification (env : NotifEnv) (today : String)
    (fs : FileSys) (m : NotifMR) : ProcResult :=
  let mr_key := mrKeyOf m
  if !(should_notify fs mr_key today) then ⟨false, fs, []⟩
  else match m.project_id with
  | none => ⟨false, fs, []⟩
  | some _ =>
    if approved_by_all_of m then ⟨false, mark_notified env.writeOk fs mr_key today, []⟩
    else
      let _ := check_and_add_coverage_reviewers env m
      let assignees := env.assignees
      let approved_users := env.approved_users
      let pending_reviewers :=
        assignees.filter (fun assignee => !(approved_users.contains assignee))
      if assignees.isEmpty then ⟨false, mark_notified env.writeOk fs mr_key today, []⟩
      else if pending_reviewers.isEmpty then
        ⟨false, mark_notified env.writeOk fs mr_key today, []⟩
      else
        let message := format_notification_message env m pending_reviewers
        if env.sendOk then
          ⟨true, mark_notified env.writeOk fs mr_key today, [(message, true)]⟩
        else ⟨false, fs, [(message, false)]⟩

/-- The number of messages actually delivered (sends that returned
success) in one evaluation. -/
def delivered (r : ProcResult) : Nat :=
  (r.sends.filter (fun s => s.2)).length

end MRNotifierM

lemma charListLT_trans :
    ∀ a b c : List Char, charListLT a b → charListLT b c → charListLT a c := by
  intro a
  induction a with
  | nil =>
    intro b c h1 h2
    cases b with
    | nil => exact absurd h1 (by simp [charListLT])
    | cons y ys =>
      cases c with
      | nil => exact absurd h2 (by simp [charListLT])
      | cons z zs => simp [charListLT]
  | cons x xs ih =>
    intro b c h1 h2
    cases b with
    | nil => exact absurd h1 (by simp [charListLT])
    | cons y ys =>
      cases c with
      | nil => exact absurd h2 (by simp [charListLT])
      | cons z zs =>
        simp only [charListLT] at h1 h2 ⊢
        rcases lt_trichotomy x y with hxy | rfl | hxy
        · rcases lt_trichotomy y z with hyz | rfl | hyz
          · rw [if_pos (lt_trans hxy hyz)]
          · rw [if_pos hxy]
          · rw [if_neg (lt_asymm hyz), if_pos hyz] at h2
            exact absurd h2 (by simp)
        · rw [if_neg (lt_irrefl x)] at h1
          rw [if_neg (lt_irrefl x)] at h1
          rcases lt_trichotomy x z with hxz | rfl | hxz
          · rw [if_pos hxz]
          · rw [if_neg (lt_irrefl x)] at h2 ⊢
            rw [if_neg (lt_irrefl x)] at h2 ⊢
            exact ih ys zs h1 h2
          · rw [if_neg (lt_asymm hxz), if_pos hxz] at h2
            exact absurd h2 (by simp)
        · rw [if_neg (lt_asymm hxy), if_pos hxy] at h1
          exact absurd h1 (by simp)

lemma charListLT_connex :
    ∀ a b : List Char, charListLT a b ∨ charListLT b a ∨ a = b := by
  intro a
  induction a with
  | nil =>
    intro b
    cases b with
    | nil => right; right; rfl
    | cons y ys => left; simp [charListLT]
  | cons x xs ih =>
    intro b
    cases b with
    | nil => right; left; simp [charListLT]
    | cons y ys =>
      rcases lt_trichotomy x y with h | h | h
      · left; simp [charListLT, if_pos h]
      · subst h
        rcases ih ys with h2 | h2 | h2
        · left; simp [charListLT, lt_irrefl, h2]
        · right; left; simp [charListLT, lt_irrefl, h2]
        · right; right; rw [h2]
      · right; left; simp [charListLT, if_pos h]

namespace MRModelM

lemma keyLE_trans (a b c : List Char × Int) (h1 : keyLE a b) (h2 : keyLE b c) :
    keyLE a c := by
  simp only [keyLE, Bool.or_eq_true, Bool.and_eq_true, decide_eq_true_eq] at *
  rcases h1 with h1 | ⟨h1e, h1i⟩ <;> rcases h2 with h2 | ⟨h2e, h2i⟩
  · exact Or.inl (charListLT_trans _ _ _ h1 h2)
  · exact Or.inl (h2e ▸ h1)
  · exact Or.inl (h1e ▸ h2)
  · exact Or.inr ⟨h1e.trans h2e, le_trans h1i h2i⟩

lemma keyLE_total (a b : List Char × Int) : keyLE a b || keyLE b a := by
  simp only [keyLE, Bool.or_eq_true, Bool.and_eq_true, decide_eq_true_eq]
  rcases charListLT_connex a.1 b.1 with h | h | h
  · exact Or.inl (Or.inl h)
  · exact Or.inr (Or.inl h)
  · rcases le_total a.2 b.2 with hi | hi
    · exact Or.inl (Or.inr ⟨h, hi⟩)
    · exact Or.inr (Or.inr ⟨h.symm, hi⟩)

instance : IsTrans MREntry entryRel :=
  ⟨fun _ _ _ h1 h2 => keyLE_trans _ _ _ h1 h2⟩

instance : IsTotal MREntry entryRel :=
  ⟨fun a b => by
    have := keyLE_total (sortKeyOf a) (sortKeyOf b)
    simpa [entryRel, entryLE, Bool.or_eq_true] using this⟩

lemma clear_repo_sublist (r : String) :
    ∀ l m : List MREntry, clear_repo r l = some m → m.Sublist l := by
  intro l
  induction l with
  | nil =>
    intro m h
    simp only [clear_repo, Option.some.injEq] at h
    simp [← h]
  | cons e rest ih =>
    intro m h
    cases he : e.repo with
    | none =>
      simp only [clear_repo, he] at h
      exact absurd h (by simp)
    | some rr =>
      simp only [clear_repo, he] at h
      by_cases hr : rr = r
      · rw [if_pos hr] at h
        exact (ih m h).cons e
      · rw [if_neg hr, Option.map_eq_some'] at h
        obtain ⟨m', hm', rfl⟩ := h
        exact (ih m' hm').cons₂ e

lemma clear_repo_not_repo (r : String) :
    ∀ l m : List MREntry, clear_repo r l = some m →
      ∀ e ∈ m, e.repo ≠ some r := by
  intro l
  induction l with
  | nil =>
    intro m h
    simp only [clear_repo, Option.some.injEq] at h
    simp [← h]
  | cons e rest ih =>
    intro m h
    cases he : e.repo with
    | none =>
      simp only [clear_repo, he] at h
      exact absurd h (by simp)
    | some rr =>
      simp only [clear_repo, he] at h
      by_cases hr : rr = r
      · rw [if_pos hr] at h
        exact ih m h
      · rw [if_neg hr, Option.map_eq_some'] at h
        obtain ⟨m', hm', rfl⟩ := h
        intro x hx
        rcases List.mem_cons.mp hx with rfl | hx
        · rw [he]
          intro hc
          exact hr (by injection hc)
        · exact ih m' hm' x hx

lemma sort_data_spec (l m : List MREntry) (h : sort_data l = some m) :
    m.Perm l ∧ m.Pairwise entryRel := by
  simp only [sort_data] at h
  by_cases hnil : l = []
  · rw [if_pos hnil] at h
    obtain rfl : ([] : List MREntry) = m := by injection h
    simp [hnil]
  · rw [if_neg hnil] at h
    by_cases hall : l.all (fun e => (mrSortNum? e.mr).isSome)
    · rw [if_pos hall] at h
      obtain rfl : l.insertionSort entryRel = m := by injection h
      exact ⟨List.perm_insertionSort entryRel l,
        List.sorted_insertionSort entryRel l⟩
    · rw [if_neg hall] at h
      exact absurd h (by simp)

lemma update_inv {l l' : List MREntry} {r : String} {items : List MREntry}
    (hInv : Inv l) (hgood : GoodCall (r, items))
    (hup : update_repo_data r items l = some l') : Inv l' := by
  obtain ⟨hsome, hnodup, _⟩ := hInv
  obtain ⟨hrepo, hmr⟩ := hgood
  simp only [update_repo_data, Option.bind_eq_some] at hup
  obtain ⟨cleared, hcl, hsort⟩ := hup
  set items' := items.map
    (fun it => MREntry.mk it.repo it.mr (r ++ "-" ++ it.mr)) with hitems'
  obtain ⟨hperm, hpair⟩ := sort_data_spec _ _ hsort
  have hsub : cleared.Sublist l := clear_repo_sublist r l cleared hcl
  have hclrep : ∀ e ∈ cleared, e.repo ≠ some r := clear_repo_not_repo r l cleared hcl
  have hnd_cleared : (cleared.map pairOf).Nodup :=
    hnodup.sublist (hsub.map pairOf)
  have hmap_snd : (items'.map pairOf).map Prod.snd = items.map (·.mr) := by
    simp [hitems', List.map_map, pairOf, Function.comp]
  have hnd_items : (items'.map pairOf).Nodup := by
    refine List.Nodup.of_map Prod.snd ?_
    rw [hmap_snd]
    exact hmr
  have hdisj : (cleared.map pairOf).Disjoint (items'.map pairOf) := by
    intro p hp1 hp2
    obtain ⟨e1, he1, rfl⟩ := List.mem_map.mp hp1
    obtain ⟨e2, he2, hpe⟩ := List.mem_map.mp hp2
    obtain ⟨it, hit, rfl⟩ := List.mem_map.mp he2
    have hit_r : it.repo = some r := hrepo it hit
    have he1_r : e1.repo = some r := by
      have hfst := congrArg Prod.fst hpe
      simp only [pairOf] at hfst
      exact hfst ▸ hit_r
    exact hclrep e1 he1 he1_r
  have hnd_app : ((cleared ++ items').map pairOf).Nodup := by
    rw [List.map_append, List.nodup_append]
    exact ⟨hnd_cleared, hnd_items, hdisj⟩
  have hperm_map : (l'.map pairOf).Perm ((cleared ++ items').map pairOf) :=
    hperm.map pairOf
  refine ⟨?_, hperm_map.nodup_iff.mpr hnd_app, hpair⟩
  intro e he
  have hmem : e ∈ cleared ++ items' := hperm.mem_iff.mp he
  rcases List.mem_append.mp hmem with hc | hi
  · exact hsome e (hsub.mem hc)
  · obtain ⟨it, hit, rfl⟩ := List.mem_map.mp hi
    simp [hrepo it hit]

lemma foldl_step_none (calls : List (String × List MREntry)) :
    calls.foldl (fun acc c => acc.bind (update_repo_data c.1 c.2)) none = none := by
  induction calls with
  | nil => rfl
  | cons c rest ih => simpa using ih

lemma runCalls_inv :
    ∀ (calls : List (String × List MREntry)), (∀ c ∈ calls, GoodCall c) →
      ∀ acc l, Inv acc →
        calls.foldl (fun acc c => acc.bind (update_repo_data c.1 c.2))
          (some acc) = some l → Inv l := by
  intro calls
  induction calls with
  | nil =>
    intro _ acc l hInv h
    simp only [List.foldl_nil, Option.some.injEq] at h
    exact h ▸ hInv
  | cons c rest ih =>
    intro hgood acc l hInv h
    rw [List.foldl_cons, Option.some_bind] at h
    cases hup : update_repo_data c.1 c.2 acc with
    | none =>
      rw [hup, foldl_step_none] at h
      exact absurd h (by simp)
    | some mid =>
      rw [hup] at h
      have hmid : Inv mid :=
        update_inv hInv (by
          have := hgood c (List.mem_cons_self c rest)
          exact this) hup
      exact ih (fun d hd => hgood d (List.mem_cons_of_mem c hd)) mid l hmid h

/-- C1 counterexample: a single `update_repo_data` call whose new-item
list repeats the mr label `"!1"` completes normally and leaves two
entries with the same `(repo, mr)` key in the model, refuting the
claimed uniqueness invariant for arbitrary new-entry lists. -/
theorem c1_counterexample :
    runCalls [("r", [⟨some "r", "!1", ""⟩, ⟨some "r", "!1", ""⟩])]
      = some [⟨some "r", "!1", "r-!1"⟩, ⟨some "r", "!1", "r-!1"⟩] ∧
    ¬ (([MREntry.mk (some "r") "!1" "r-!1",
         MREntry.mk (some "r") "!1" "r-!1"].map pairOf).Nodup) := by
  exact ⟨by decide, by decide⟩

/-- C1 (amended): for every sequence of `update_repo_data` calls in
which each call's new items carry `repo = repo_name` and
pairwise-distinct mr labels, after each call that completes without an
exception the in-memory list contains no two entries with the same
`(repo, mr)` key and is sorted ascending by `(repo name, numeric mr)`,
where the numeric mr is the integer after dropping the first character
and an empty remainder counts as 0 (a malformed non-empty remainder
makes the call raise instead of completing). -/
theorem c1_amended (calls : List (String × List MREntry))
    (hgood : ∀ c ∈ calls, GoodCall c) (l : List MREntry)
    (hrun : runCalls calls = some l) :
    (l.map pairOf).Nodup ∧ l.Pairwise entryRel := by
  have h := runCalls_inv calls hgood [] l ⟨by simp, by simp, by simp⟩ hrun
  exact ⟨h.2.1, h.2.2⟩

/-- Witness for `c1_amended` at a concrete two-call run. -/
theorem c1_amended_witness :
    (∀ c ∈ [("b", [MREntry.mk (some "b") "!2" ""]),
            ("a", [MREntry.mk (some "a") "!10" "", MREntry.mk (some "a") "!3" ""])],
       GoodCall c) ∧
    runCalls [("b", [MREntry.mk (some "b") "!2" ""]),
              ("a", [MREntry.mk (some "a") "!10" "", MREntry.mk (some "a") "!3" ""])]
      = some [MREntry.mk (some "a") "!3" "a-!3",
              MREntry.mk (some "a") "!10" "a-!10",
              MREntry.mk (some "b") "!2" "b-!2"] ∧
    (([MREntry.mk (some "a") "!3" "a-!3",
       MREntry.mk (some "a") "!10" "a-!10",
       MREntry.mk (some "b") "!2" "b-!2"].map pairOf).Nodup ∧
     [MREntry.mk (some "a") "!3" "a-!3",
      MREntry.mk (some "a") "!10" "a-!10",
      MREntry.mk (some "b") "!2" "b-!2"].Pairwise entryRel) := by
  refine ⟨?_, ?_, ?_⟩
  · decide
  · decide
  · exact c1_amended
      [("b", [MREntry.mk (some "b") "!2" ""]),
       ("a", [MREntry.mk (some "a") "!10" "", MREntry.mk (some "a") "!3" ""])]
      (by decide)
      [MREntry.mk (some "a") "!3" "a-!3",
       MREntry.mk (some "a") "!10" "a-!10",
       MREntry.mk (some "b") "!2" "b-!2"]
      (by decide)

end MRModelM

namespace GitlabApiM

lemma requestLoop_spec (env : Nat → Outcome β) (base_delay : Nat) :
    ∀ remaining attempt,
      (requestLoop env base_delay attempt remaining).requests ≤ remaining ∧
      ∀ b, (requestLoop env base_delay attempt remaining).result = some b →
        ∃ k, attempt ≤ k ∧ k < attempt + remaining ∧
          env k = Outcome.resp 200 (Except.ok b) := by
  intro remaining
  induction remaining with
  | zero =>
    intro attempt
    exact ⟨Nat.le_refl 0, fun b hb => absurd hb (by simp [requestLoop])⟩
  | succ r ih =>
    intro attempt
    obtain ⟨ihreq, ihres⟩ := ih (attempt + 1)
    cases he : env attempt with
    | resp status body =>
      by_cases h200 : status = 200
      · cases body with
        | ok b0 =>
          subst h200
          constructor
          · simp [requestLoop, he]
          · intro b hb
            simp [requestLoop, he] at hb
            exact ⟨attempt, Nat.le_refl _, by omega, by rw [he, hb]⟩
        | error u =>
          subst h200
          constructor
          · simp only [requestLoop, he]
            simp only [if_pos rfl, reduceIte]
            omega
          · intro b hb
            simp only [requestLoop, he] at hb
            simp only [if_pos rfl, reduceIte] at hb
            obtain ⟨k, hk1, hk2, hk3⟩ := ihres b hb
            exact ⟨k, by omega, by omega, hk3⟩
      · by_cases h429 : status = 429
        · constructor
          · simp only [requestLoop, he, if_neg h200, if_pos h429]
            omega
          · intro b hb
            simp only [requestLoop, he, if_neg h200, if_pos h429] at hb
            obtain ⟨k, hk1, hk2, hk3⟩ := ihres b hb
            exact ⟨k, by omega, by omega, hk3⟩
        · constructor
          · simp [requestLoop, he, if_neg h200, if_neg h429]
          · intro b hb
            simp [requestLoop, he, if_neg h200, if_neg h429] at hb
    | timeout =>
      constructor
      · simp only [requestLoop, he]
        omega
      · intro b hb
        simp only [requestLoop, he] at hb
        obtain ⟨k, hk1, hk2, hk3⟩ := ihres b hb
        exact ⟨k, by omega, by omega, hk3⟩
    | exn =>
      constructor
      · simp only [requestLoop, he]
        omega
      · intro b hb
        simp only [requestLoop, he] at hb
        obtain ⟨k, hk1, hk2, hk3⟩ := ihres b hb
        exact ⟨k, by omega, by omega, hk3⟩

/-- C5: whenever the response at some attempt inside the retry loop has
a status other than 200 and other than 429, the loop returns the
no-data value `none` at once: exactly that one HTTP request is issued
from this point and no sleep is performed.  At `attempt = 0` and
`remaining = max_retries` this is the behaviour of
`make_gitlab_request` itself. -/
theorem c5_non_transient_fails_immediately (env : Nat → Outcome β)
    (base_delay max_retries attempt status : Nat) (body : Except Unit β)
    (hin : attempt < max_retries) (hr : env attempt = Outcome.resp status body)
    (h200 : status ≠ 200) (h429 : status ≠ 429) :
    requestLoop env base_delay attempt (max_retries - attempt) =
      ⟨none, 1, []⟩ := by
  obtain ⟨r, hrr⟩ : ∃ r, max_retries - attempt = r + 1 :=
    ⟨max_retries - attempt - 1, by omega⟩
  rw [hrr]
  simp [requestLoop, hr, if_neg h200, if_neg h429]

/-- Witness for `c5_non_transient_fails_immediately`: a 500 response on
the first attempt makes `make_gitlab_request` (with the default 3
retries) return no data after a single request and no sleep. -/
theorem c5_witness :
    ((fun _ => Outcome.resp 500 (Except.ok (7 : Nat))) 0
        = Outcome.resp 500 (Except.ok 7)) ∧
    make_gitlab_request (fun _ => Outcome.resp 500 (Except.ok (7 : Nat))) 3 1 =
      ⟨none, 1, []⟩ :=
  ⟨rfl, c5_non_transient_fails_immediately
    (fun _ => Outcome.resp 500 (Except.ok (7 : Nat))) 1 3 0 500 (Except.ok 7)
    (by omega) rfl (by omega) (by omega)⟩

/-- C9: `make_gitlab_request` is total over every sequence of transport
outcomes (the model is a total function: transport errors and malformed
bodies are branches, not escapes), issues at most `max_retries` HTTP
requests, and returns a value only when it is the decoded body of a 200
response received on some attempt; in every other case it returns the
no-data value `none`. -/
theorem c9_total_bounded (env : Nat → Outcome β) (max_retries base_delay : Nat) :
    (make_gitlab_request env max_retries base_delay).requests ≤ max_retries ∧
    ∀ b, (make_gitlab_request env max_retries base_delay).result = some b →
      ∃ k, k < max_retries ∧ env k = Outcome.resp 200 (Except.ok b) := by
  obtain ⟨hreq, hres⟩ := requestLoop_spec env base_delay max_retries 0
  refine ⟨hreq, fun b hb => ?_⟩
  obtain ⟨k, _, hk2, hk3⟩ := hres b hb
  exact ⟨k, by omega, hk3⟩

/-- Witness for `c9_total_bounded`: a timeout, then a 429, then a
successful 200 — three requests, result decoded from the 200. -/
theorem c9_witness :
    ((make_gitlab_request
        (fun k => if k = 0 then Outcome.timeout
                  else if k = 1 then Outcome.resp 429 (Except.error ())
                  else Outcome.resp 200 (Except.ok (5 : Nat))) 3 1).requests ≤ 3) ∧
    ∃ k, k < 3 ∧
      (fun k => if k = 0 then Outcome.timeout
                else if k = 1 then Outcome.resp 429 (Except.error ())
                else Outcome.resp 200 (Except.ok (5 : Nat))) k
        = Outcome.resp 200 (Except.ok 5) :=
  ⟨(c9_total_bounded _ 3 1).1,
   (c9_total_bounded
      (fun k => if k = 0 then Outcome.timeout
                else if k = 1 then Outcome.resp 429 (Except.error ())
                else Outcome.resp 200 (Except.ok (5 : Nat))) 3 1).2 5 (by decide)⟩

/-- C4: `approved_except_coverage` is true iff no rule with a name
other than `'Coverage-Check'` remains unsatisfied and (the MR is not
fully approved or a `'Coverage-Check'` rule remains); in particular
with no outstanding rules and `approved` set it is false; and a failed
fetch yields all three flags false. -/
theorem c4_approved_except_coverage :
    (∀ d : ApprovalsData,
      ((get_approval_status (some d)).approved_except_coverage = true ↔
        ((∀ rule ∈ d.approval_rules_left.getD [],
            rule.name.getD "" = "Coverage-Check") ∧
         (d.approved.getD false = false ∨
          ∃ rule ∈ d.approval_rules_left.getD [],
            rule.name.getD "" = "Coverage-Check")))) ∧
    (∀ d : ApprovalsData, d.approval_rules_left.getD [] = [] →
      d.approved.getD false = true →
      (get_approval_status (some d)).approved_except_coverage = false) ∧
    get_approval_status none = ⟨false, false, false⟩ := by
  refine ⟨fun d => ?_, fun d hrules happ => ?_, rfl⟩
  · simp only [get_approval_status, Bool.and_eq_true, Bool.or_eq_true,
      Bool.not_eq_true', List.any_eq_false, List.any_eq_true, beq_iff_eq,
      Bool.not_eq_true, Bool.not_eq_eq_eq_not, Bool.not_true, Bool.not_false]
    constructor
    · rintro ⟨hother, happ⟩
      refine ⟨fun rule hr => ?_, ?_⟩
      · have := hother rule hr
        simpa using this
      · rcases happ with h | h
        · exact Or.inl (by simpa using h)
        · exact Or.inr h
    · rintro ⟨hother, happ⟩
      refine ⟨fun rule hr => ?_, ?_⟩
      · have := hother rule hr
        simpa using this
      · rcases happ with h | h
        · exact Or.inl (by simpa using h)
        · exact Or.inr h
  · simp [get_approval_status, hrules, happ]

/-- Witness for `c4_approved_except_coverage` at a payload with one
outstanding non-coverage rule and one satisfied state. -/
theorem c4_witness :
    ((get_approval_status
        (some ⟨some [⟨some "Review"⟩], some false⟩)).approved_except_coverage = true ↔
      ((∀ rule ∈ (some [ApprovalRule.mk (some "Review")]).getD [],
          rule.name.getD "" = "Coverage-Check") ∧
       ((some false).getD false = false ∨
        ∃ rule ∈ (some [ApprovalRule.mk (some "Review")]).getD [],
          rule.name.getD "" = "Coverage-Check"))) ∧
    ((some ([] : List ApprovalRule)).getD [] = [] → (some true).getD false = true →
      (get_approval_status
        (some ⟨some [], some true⟩)).approved_except_coverage = false) :=
  ⟨(c4_approved_except_coverage).1 ⟨some [⟨some "Review"⟩], some false⟩,
   (c4_approved_except_coverage).2.1 ⟨some [], some true⟩⟩

/-- C6: `get_merge_status` returns `'CONFLICT'` iff one of the three
conflict signals holds in the fetched MR detail; when all three are
false, and also when the fetch failed, it returns the empty string. -/
theorem c6_merge_status :
    (∀ d : MRDetail,
      (get_merge_status (some d) = "CONFLICT" ↔
        (d.detailed_merge_status = some "conflict" ∨
         d.merge_status = some "cannot_be_merged" ∨
         d.has_conflicts.getD false = true))) ∧
    (∀ d : MRDetail,
      d.detailed_merge_status ≠ some "conflict" →
      d.merge_status ≠ some "cannot_be_merged" →
      d.has_conflicts.getD false = false →
      get_merge_status (some d) = "") ∧
    get_merge_status none = "" := by
  refine ⟨fun d => ?_, fun d h1 h2 h3 => ?_, rfl⟩
  · simp only [get_merge_status]
    by_cases hc : (d.detailed_merge_status == some "conflict") ||
        (d.merge_status == some "cannot_be_merged") || d.has_conflicts.getD false
    · rw [if_pos hc]
      simp only [Bool.or_eq_true, beq_iff_eq] at hc
      exact ⟨fun _ => by tauto, fun _ => rfl⟩
    · rw [if_neg hc]
      simp only [Bool.or_eq_true, beq_iff_eq, not_or] at hc
      constructor
      · intro h
        exact absurd h (by decide)
      · intro h
        rcases h with h | h | h
        · exact absurd h hc.1.1
        · exact absurd h hc.1.2
        · exact absurd h (by simp [hc.2])
  · simp [get_merge_status, h1, h2, h3]

/-- Witness for `c6_merge_status` at a detail with `has_conflicts` set
and at a clean detail. -/
theorem c6_witness :
    (get_merge_status (some ⟨some "can_be_merged", some "mergeable", some true,
        none, none, none⟩) = "CONFLICT" ↔
      ((some "mergeable" : Option String) = some "conflict" ∨
       (some "can_be_merged" : Option String) = some "cannot_be_merged" ∨
       (some true : Option Bool).getD false = true)) ∧
    get_merge_status (some ⟨some "can_be_merged", some "mergeable", some false,
        none, none, none⟩) = "" :=
  ⟨(c6_merge_status).1 ⟨some "can_be_merged", some "mergeable", some true,
      none, none, none⟩,
   (c6_merge_status).2.1 ⟨some "can_be_merged", some "mergeable", some false,
      none, none, none⟩ (by decide) (by decide) (by decide)⟩

/-- C7: whenever the pipelines-by-SHA query returns a non-empty list,
`get_pipeline_status` returns the first entry's status and web URL —
whatever `mr_iid` was supplied — and issues no further API call, so the
head-pipeline fallback is not consulted. -/
theorem c7_first_pipeline_authoritative (env : PipelineEnv)
    (p : Pipeline) (rest : List Pipeline) (mr_iid : Option Int)
    (hsha : env.pipelines_by_sha = some (p :: rest)) :
    get_pipeline_status env mr_iid =
      ((some p.status, some p.web_url), [PipelineReq.pipelinesBySha]) := by
  simp [get_pipeline_status, hsha]

/-- Witness for `c7_first_pipeline_authoritative` with a two-element
pipeline list and an MR id supplied. -/
theorem c7_witness :
    (PipelineEnv.mk
        (some [⟨"success", "u1", 1⟩, ⟨"failed", "u2", 2⟩])
        (some ⟨none, none, none, none, none, some 9⟩)
        (fun _ => some ⟨"failed", "u3", 9⟩)).pipelines_by_sha
      = some (Pipeline.mk "success" "u1" 1 :: [Pipeline.mk "failed" "u2" 2]) ∧
    get_pipeline_status
      (PipelineEnv.mk
        (some [⟨"success", "u1", 1⟩, ⟨"failed", "u2", 2⟩])
        (some ⟨none, none, none, none, none, some 9⟩)
        (fun _ => some ⟨"failed", "u3", 9⟩))
      (some 42)
      = ((some "success", some "u1"), [PipelineReq.pipelinesBySha]) :=
  ⟨rfl, c7_first_pipeline_authoritative
    (PipelineEnv.mk
      (some [⟨"success", "u1", 1⟩, ⟨"failed", "u2", 2⟩])
      (some ⟨none, none, none, none, none, some 9⟩)
      (fun _ => some ⟨"failed", "u3", 9⟩))
    (Pipeline.mk "success" "u1" 1) [Pipeline.mk "failed" "u2" 2] (some 42) rfl⟩

end GitlabApiM

namespace MRNotifierM

/-- A marker just written for `mr_key` suppresses the key for the rest
of the day (today's date, as produced by `date.today().isoformat()`,
strips to itself). -/
lemma should_notify_after_mark (fs : FileSys) (mr_key today : String)
    (ht : pyStrip today = today) :
    should_notify (mark_notified true fs mr_key today) mr_key today = false := by
  simp [should_notify, mark_notified, ht]

lemma process_early_exit (env : NotifEnv) (today : String) (fs : FileSys)
    (m : NotifMR) (h : should_notify fs (mrKeyOf m) today = false) :
    process_mr_for_notification env today fs m = ⟨false, fs, []⟩ := by
  simp only [process_mr_for_notification, h, Bool.not_false, reduceIte]

lemma process_no_project (env : NotifEnv) (today : String) (fs : FileSys)
    (m : NotifMR) (hsn : should_notify fs (mrKeyOf m) today = true)
    (hp : m.project_id = none) :
    process_mr_for_notification env today fs m = ⟨false, fs, []⟩ := by
  simp only [process_mr_for_notification, hsn, hp, Bool.not_true,
    Bool.false_eq_true, reduceIte]

lemma process_approved_branch (env : NotifEnv) (today : String) (fs : FileSys)
    (m : NotifMR) (pid : String)
    (hsn : should_notify fs (mrKeyOf m) today = true)
    (hp : m.project_id = some pid)
    (hap : approved_by_all_of m = true) :
    process_mr_for_notification env today fs m =
      ⟨false, mark_notified env.writeOk fs (mrKeyOf m) today, []⟩ := by
  simp only [process_mr_for_notification, hsn, hp, hap, Bool.not_true,
    Bool.false_eq_true, reduceIte]

lemma process_no_assignees (env : NotifEnv) (today : String) (fs : FileSys)
    (m : NotifMR) (pid : String)
    (hsn : should_notify fs (mrKeyOf m) today = true)
    (hp : m.project_id = some pid)
    (hap : approved_by_all_of m = false)
    (hassign : env.assignees.isEmpty = true) :
    process_mr_for_notification env today fs m =
      ⟨false, mark_notified env.writeOk fs (mrKeyOf m) today, []⟩ := by
  simp only [process_mr_for_notification, hsn, hp, hap, hassign, Bool.not_true,
    Bool.false_eq_true, reduceIte]

lemma process_none_pending (env : NotifEnv) (today : String) (fs : FileSys)
    (m : NotifMR) (pid : String)
    (hsn : should_notify fs (mrKeyOf m) today = true)
    (hp : m.project_id = some pid)
    (hap : approved_by_all_of m = false)
    (hassign : env.assignees.isEmpty = false)
    (hpend : (env.assignees.filter
      (fun assignee => !(env.approved_users.contains assignee))).isEmpty = true) :
    process_mr_for_notification env today fs m =
      ⟨false, mark_notified env.writeOk fs (mrKeyOf m) today, []⟩ := by
  simp only [process_mr_for_notification, hsn, hp, hap, hassign, hpend,
    Bool.not_true, Bool.false_eq_true, reduceIte]

lemma process_send_branch (env : NotifEnv) (today : String) (fs : FileSys)
    (m : NotifMR) (pid : String)
    (hsn : should_notify fs (mrKeyOf m) today = true)
    (hp : m.project_id = some pid)
    (hap : approved_by_all_of m = false)
    (hassign : env.assignees.isEmpty = false)
    (hpend : (env.assignees.filter
      (fun assignee => !(env.approved_users.contains assignee))).isEmpty = false) :
    process_mr_for_notification env today fs m =
      if env.sendOk then
        ⟨true, mark_notified env.writeOk fs (mrKeyOf m) today,
          [(format_notification_message env m (env.assignees.filter
            (fun assignee => !(env.approved_users.contains assignee))), true)]⟩
      else
        ⟨false, fs, [(format_notification_message env m (env.assignees.filter
          (fun assignee => !(env.approved_users.contains assignee))), false)]⟩ := by
  simp only [process_mr_for_notification, hsn, hp, hap, hassign, hpend,
    Bool.not_true, Bool.false_eq_true, reduceIte]

/-- C2 counterexample: with unchanged inputs — two assignees of which
one is pending, a send that succeeds, and a marker write that raises
and is swallowed (mr_notifier.py:117-118) — two same-day evaluations
each find no marker and each deliver a message: two messages in total,
refuting the claimed at-most-one idempotence. -/
theorem c2_counterexample :
    delivered (process_mr_for_notification
        (NotifEnv.mk ["A", "B"] ["A"] (fun _ => none) true true false)
        "2026-10-12" (fun _ => none)
        (NotifMR.mk (some "repo") 5 "http://x" (some "p1")
          (some ⟨false, false, false⟩) (some "success"))) +
      delivered (process_mr_for_notification
        (NotifEnv.mk ["A", "B"] ["A"] (fun _ => none) true true false)
        "2026-10-12"
        (process_mr_for_notification
          (NotifEnv.mk ["A", "B"] ["A"] (fun _ => none) true true false)
          "2026-10-12" (fun _ => none)
          (NotifMR.mk (some "repo") 5 "http://x" (some "p1")
            (some ⟨false, false, false⟩) (some "success"))).fs
        (NotifMR.mk (some "repo") 5 "http://x" (some "p1")
          (some ⟨false, false, false⟩) (some "success"))) = 2 := by
  decide

/-- C2 (amended): evaluating the notification gate twice in the same
day for the same record with unchanged inputs delivers at most one
message in total, provided the notified-today marker write succeeds (a
marker-write failure is swallowed by the source, and a swallowed
failure after a successful send leaves no marker, so the reminder is
delivered again). -/
theorem c2_notification_idempotent (env : NotifEnv) (today : String)
    (fs : FileSys) (m : NotifMR) (ht : pyStrip today = today)
    (hw : env.writeOk = true) :
    delivered (process_mr_for_notification env today fs m) +
      delivered (process_mr_for_notification env today
        (process_mr_for_notification env today fs m).fs m) ≤ 1 := by
  cases hsn : should_notify fs (mrKeyOf m) today with
  | false =>
    rw [process_early_exit env today fs m hsn]
    rw [process_early_exit env today fs m hsn]
    simp [delivered]
  | true =>
    cases hp : m.project_id with
    | none =>
      rw [process_no_project env today fs m hsn hp]
      rw [process_no_project env today fs m hsn hp]
      simp [delivered]
    | some pid =>
      have hmarked : should_notify
          (mark_notified env.writeOk fs (mrKeyOf m) today) (mrKeyOf m) today
            = false := by
        rw [hw]
        exact should_notify_after_mark fs (mrKeyOf m) today ht
      cases hap : approved_by_all_of m with
      | true =>
        rw [process_approved_branch env today fs m pid hsn hp hap]
        rw [process_early_exit env today _ m hmarked]
        simp [delivered]
      | false =>
        cases hassign : env.assignees.isEmpty with
        | true =>
          rw [process_no_assignees env today fs m pid hsn hp hap hassign]
          rw [process_early_exit env today _ m hmarked]
          simp [delivered]
        | false =>
          cases hpend : (env.assignees.filter
              (fun assignee => !(env.approved_users.contains assignee))).isEmpty with
          | true =>
            rw [process_none_pending env today fs m pid hsn hp hap hassign hpend]
            rw [process_early_exit env today _ m hmarked]
            simp [delivered]
          | false =>
            cases hsend : env.sendOk with
            | true =>
              rw [process_send_branch env today fs m pid hsn hp hap hassign hpend,
                hsend]
              rw [if_pos rfl]
              rw [process_early_exit env today _ m hmarked]
              simp [delivered]
            | false =>
              rw [process_send_branch env today fs m pid hsn hp hap hassign hpend,
                hsend]
              rw [if_neg (by simp)]
              rw [process_send_branch env today fs m pid hsn hp hap hassign hpend,
                hsend]
              rw [if_neg (by simp)]
              simp [delivered]

/-- Witness for `c2_notification_idempotent` at a concrete record and
environment (a pending reviewer, a succeeding send and a succeeding
marker write). -/
theorem c2_witness :
    pyStrip "2026-10-12" = "2026-10-12" ∧
    (NotifEnv.mk ["A", "B"] ["A"] (fun _ => none) true true true).writeOk
      = true ∧
    delivered (process_mr_for_notification
        (NotifEnv.mk ["A", "B"] ["A"] (fun _ => none) true true true)
        "2026-10-12" (fun _ => none)
        (NotifMR.mk (some "repo") 5 "http://x" (some "p1")
          (some ⟨false, false, false⟩) (some "success"))) +
      delivered (process_mr_for_notification
        (NotifEnv.mk ["A", "B"] ["A"] (fun _ => none) true true true)
        "2026-10-12"
        (process_mr_for_notification
          (NotifEnv.mk ["A", "B"] ["A"] (fun _ => none) true true true)
          "2026-10-12" (fun _ => none)
          (NotifMR.mk (some "repo") 5 "http://x" (some "p1")
            (some ⟨false, false, false⟩) (some "success"))).fs
        (NotifMR.mk (some "repo") 5 "http://x" (some "p1")
          (some ⟨false, false, false⟩) (some "success"))) ≤ 1 :=
  ⟨by decide, rfl,
   c2_notification_idempotent
    (NotifEnv.mk ["A", "B"] ["A"] (fun _ => none) true true true) "2026-10-12"
    (fun _ => none)
    (NotifMR.mk (some "repo") 5 "http://x" (some "p1")
      (some ⟨false, false, false⟩) (some "success"))
    (by decide) rfl⟩

/-- C3: when the gate reaches the send step (not yet notified today,
project id present, approvals incomplete, some assignee still pending),
the marker is written only after a confirmed send: a failed send leaves
the state directory untouched and the key still eligible the same day;
after a confirmed send the marker write is attempted — it writes
today's marker when it succeeds, and a raising write is swallowed
leaving the directory unchanged (the call still returns `True`). -/
theorem c3_marker_only_after_send (env : NotifEnv) (today : String)
    (fs : FileSys) (m : NotifMR) (pid : String)
    (hsn : should_notify fs (mrKeyOf m) today = true)
    (hp : m.project_id = some pid)
    (hap : approved_by_all_of m = false)
    (hassign : env.assignees.isEmpty = false)
    (hpend : (env.assignees.filter
      (fun assignee => !(env.approved_users.contains assignee))).isEmpty = false) :
    (env.sendOk = false →
      (process_mr_for_notification env today fs m).fs = fs ∧
      delivered (process_mr_for_notification env today fs m) = 0 ∧
      should_notify (process_mr_for_notification env today fs m).fs
        (mrKeyOf m) today = true) ∧
    (env.sendOk = true → env.writeOk = true →
      (process_mr_for_notification env today fs m).fs
          (notification_date_file (mrKeyOf m))
        = some (FileState.readable today) ∧
      (process_mr_for_notification env today fs m).returned = true) ∧
    (env.sendOk = true → env.writeOk = false →
      (process_mr_for_notification env today fs m).fs = fs ∧
      (process_mr_for_notification env today fs m).returned = true) := by
  rw [process_send_branch env today fs m pid hsn hp hap hassign hpend]
  refine ⟨?_, ?_, ?_⟩
  · intro hsend
    rw [hsend, if_neg (by simp)]
    exact ⟨rfl, by simp [delivered], hsn⟩
  · intro hsend hw
    rw [hsend, if_pos rfl]
    exact ⟨by simp [mark_notified, hw], rfl⟩
  · intro hsend hw
    rw [hsend, if_pos rfl]
    exact ⟨by simp [mark_notified, hw], rfl⟩

/-- Witness for `c3_marker_only_after_send` at a concrete record with a
pending reviewer and a failing send. -/
theorem c3_witness :
    should_notify (fun _ => none)
        (mrKeyOf (NotifMR.mk (some "repo") 5 "http://x" (some "p1")
          (some ⟨false, false, false⟩) (some "success"))) "2026-10-12" = true ∧
    ((NotifEnv.mk ["A", "B"] ["A"] (fun _ => none) true false true).sendOk
        = false →
      (process_mr_for_notification
        (NotifEnv.mk ["A", "B"] ["A"] (fun _ => none) true false true)
        "2026-10-12" (fun _ => none)
        (NotifMR.mk (some "repo") 5 "http://x" (some "p1")
          (some ⟨false, false, false⟩) (some "success"))).fs = (fun _ => none) ∧
      delivered (process_mr_for_notification
        (NotifEnv.mk ["A", "B"] ["A"] (fun _ => none) true false true)
        "2026-10-12" (fun _ => none)
        (NotifMR.mk (some "repo") 5 "http://x" (some "p1")
          (some ⟨false, false, false⟩) (some "success"))) = 0 ∧
      should_notify (process_mr_for_notification
        (NotifEnv.mk ["A", "B"] ["A"] (fun _ => none) true false true)
        "2026-10-12" (fun _ => none)
        (NotifMR.mk (some "repo") 5 "http://x" (some "p1")
          (some ⟨false, false, false⟩) (some "success"))).fs
        (mrKeyOf (NotifMR.mk (some "repo") 5 "http://x" (some "p1")
          (some ⟨false, false, false⟩) (some "success"))) "2026-10-12" = true) :=
  ⟨by decide,
   (c3_marker_only_after_send
    (NotifEnv.mk ["A", "B"] ["A"] (fun _ => none) true false true) "2026-10-12"
    (fun _ => none)
    (NotifMR.mk (some "repo") 5 "http://x" (some "p1")
      (some ⟨false, false, false⟩) (some "success"))
    "p1" (by decide) rfl (by decide) (by decide) (by decide)).1⟩

/-- C8 counterexample: an approved-by-all record whose key is unmarked,
evaluated while the marker write raises (swallowed at
mr_notifier.py:117-118): no message is sent, but the notified-today
marker is *not* written — the marker file is still absent afterwards —
refuting the claim that the marker is always written for such a
record. -/
theorem c8_counterexample :
    should_notify (fun _ => none)
        (mrKeyOf (NotifMR.mk (some "repo") 7 "http://y" (some "p2")
          (some ⟨true, false, false⟩) (some "success"))) "2026-10-12" = true ∧
    approved_by_all_of (NotifMR.mk (some "repo") 7 "http://y" (some "p2")
        (some ⟨true, false, false⟩) (some "success")) = true ∧
    (process_mr_for_notification
        (NotifEnv.mk ["A"] [] (fun _ => none) true true false) "2026-10-12"
        (fun _ => none)
        (NotifMR.mk (some "repo") 7 "http://y" (some "p2")
          (some ⟨true, false, false⟩) (some "success"))).sends = [] ∧
    (process_mr_for_notification
        (NotifEnv.mk ["A"] [] (fun _ => none) true true false) "2026-10-12"
        (fun _ => none)
        (NotifMR.mk (some "repo") 7 "http://y" (some "p2")
          (some ⟨true, false, false⟩) (some "success"))).fs
        (notification_date_file
          (mrKeyOf (NotifMR.mk (some "repo") 7 "http://y" (some "p2")
            (some ⟨true, false, false⟩) (some "success")))) = none := by
  decide

/-- C8 (amended): a record with `approved_by_all` set whose key has not
been marked today sends nothing and returns `False`, and the marker
write is attempted: when it succeeds the marker holds today's date and
the key is suppressed for the day; a raising write is swallowed and
leaves the state directory unchanged (no marker). -/
theorem c8_approved_marks_without_message (env : NotifEnv) (today : String)
    (fs : FileSys) (m : NotifMR) (pid : String)
    (hsn : should_notify fs (mrKeyOf m) today = true)
    (hp : m.project_id = some pid)
    (hap : approved_by_all_of m = true)
    (ht : pyStrip today = today) :
    (process_mr_for_notification env today fs m).sends = [] ∧
    (process_mr_for_notification env today fs m).returned = false ∧
    (env.writeOk = true →
      (process_mr_for_notification env today fs m).fs
          (notification_date_file (mrKeyOf m))
        = some (FileState.readable today) ∧
      should_notify (process_mr_for_notification env today fs m).fs
        (mrKeyOf m) today = false) ∧
    (env.writeOk = false →
      (process_mr_for_notification env today fs m).fs = fs) := by
  rw [process_approved_branch env today fs m pid hsn hp hap]
  refine ⟨rfl, rfl, fun hw => ?_, fun hw => ?_⟩
  · rw [hw]
    exact ⟨by simp [mark_notified],
      should_notify_after_mark fs (mrKeyOf m) today ht⟩
  · rw [hw]
    rfl

/-- Witness for `c8_approved_marks_without_message` at a concrete fully
approved record with a succeeding marker write. -/
theorem c8_witness :
    should_notify (fun _ => none)
        (mrKeyOf (NotifMR.mk (some "repo") 7 "http://y" (some "p2")
          (some ⟨true, false, false⟩) (some "success"))) "2026-10-12" = true ∧
    (process_mr_for_notification
        (NotifEnv.mk ["A"] [] (fun _ => none) true true true) "2026-10-12"
        (fun _ => none)
        (NotifMR.mk (some "repo") 7 "http://y" (some "p2")
          (some ⟨true, false, false⟩) (some "success"))).sends = [] ∧
    (process_mr_for_notification
        (NotifEnv.mk ["A"] [] (fun _ => none) true true true) "2026-10-12"
        (fun _ => none)
        (NotifMR.mk (some "repo") 7 "http://y" (some "p2")
          (some ⟨true, false, false⟩) (some "success"))).fs
        (notification_date_file
          (mrKeyOf (NotifMR.mk (some "repo") 7 "http://y" (some "p2")
            (some ⟨true, false, false⟩) (some "success"))))
      = some (FileState.readable "2026-10-12") :=
  ⟨by decide,
   (c8_approved_marks_without_message
    (NotifEnv.mk ["A"] [] (fun _ => none) true true true) "2026-10-12"
    (fun _ => none)
    (NotifMR.mk (some "repo") 7 "http://y" (some "p2")
      (some ⟨true, false, false⟩) (some "success"))
    "p2" (by decide) rfl (by decide) (by decide)).1,
   ((c8_approved_marks_without_message
    (NotifEnv.mk ["A"] [] (fun _ => none) true true true) "2026-10-12"
    (fun _ => none)
    (NotifMR.mk (some "repo") 7 "http://y" (some "p2")
      (some ⟨true, false, false⟩) (some "success"))
    "p2" (by decide) rfl (by decide) (by decide)).2.2.1 rfl).1⟩

/-- C10: a marker file that exists but raises on read makes
`_should_notify` treat the key as not yet notified, so the merge
request stays eligible for another notification the same day. -/
theorem c10_unreadable_marker_notifies (fs : FileSys) (mr_key today : String)
    (hunread : fs (notification_date_file mr_key) = some FileState.unreadable) :
    should_notify fs mr_key today = true := by
  simp [should_notify, hunread]

/-- Witness for `c10_unreadable_marker_notifies` at a concrete
filesystem holding one unreadable marker. -/
theorem c10_witness :
    ((fun p => if p = notification_date_file "repo-5" then
        some FileState.unreadable else none) : FileSys)
      (notification_date_file "repo-5") = some FileState.unreadable ∧
    should_notify
      (fun p => if p = notification_date_file "repo-5" then
        some FileState.unreadable else none) "repo-5" "2026-10-12" = true :=
  ⟨by simp,
   c10_unreadable_marker_notifies
    (fun p => if p = notification_date_file "repo-5" then
      some FileState.unreadable else none) "repo-5" "2026-10-12" (by simp)⟩

end MRNotifierM
